import Mathlib

/-!
# Verification of the Zk-Enclave privacy-and-compliance core

Shallow embedding of the Rust sources under `src/` (phat-contract,
compliance, zk-circuits) and proofs of the spec claims C1–C10.

Bytes are modelled as `Nat` values (< 256 wherever produced by the code),
byte strings as `List Nat`, and 32-bit words as `Nat` reduced mod 2^32 at
every arithmetic step.  SHA-256 is embedded executably so that concrete
runs of the code can be settled by `decide`.
-/

namespace ZkEnclave

set_option maxRecDepth 100000

/-! ## SHA-256 (the `sha2` crate's function, FIPS 180-4) -/

def mask32 : Nat := 0xffffffff

def w32 (n : Nat) : Nat := n &&& mask32

def rotr (n x : Nat) : Nat :=
  ((x >>> n) ||| (x <<< (32 - n))) &&& mask32

def shaK : List Nat :=
  [1116352408, 1899447441, 3049323471, 3921009573, 961987163, 1508970993,
   2453635748, 2870763221, 3624381080, 310598401, 607225278, 1426881987,
   1925078388, 2162078206, 2614888103, 3248222580, 3835390401, 4022224774,
   264347078, 604807628, 770255983, 1249150122, 1555081692, 1996064986,
   2554220882, 2821834349, 2952996808, 3210313671, 3336571891, 3584528711,
   113926993, 338241895, 666307205, 773529912, 1294757372, 1396182291,
   1695183700, 1986661051, 2177026350, 2456956037, 2730485921, 2820302411,
   3259730800, 3345764771, 3516065817, 3600352804, 4094571909, 275423344,
   430227734, 506948616, 659060556, 883997877, 958139571, 1322822218,
   1537002063, 1747873779, 1955562222, 2024104815, 2227730452, 2361852424,
   2428436474, 2756734187, 3204031479, 3329325298]

def shaH0 : List Nat :=
  [1779033703, 3144134277, 1013904242, 2773480762,
   1359893119, 2600822924, 528734635, 1541459225]

/-- Big-endian bytes of a 32-bit word. -/
def beBytes4 (x : Nat) : List Nat :=
  [(x >>> 24) &&& 255, (x >>> 16) &&& 255, (x >>> 8) &&& 255, x &&& 255]

/-- Big-endian bytes of a 64-bit word. -/
def beBytes8 (x : Nat) : List Nat :=
  [(x >>> 56) &&& 255, (x >>> 48) &&& 255, (x >>> 40) &&& 255, (x >>> 32) &&& 255,
   (x >>> 24) &&& 255, (x >>> 16) &&& 255, (x >>> 8) &&& 255, x &&& 255]

/-- SHA-256 message padding: `0x80`, zeros to 56 mod 64, 8-byte big-endian bit length. -/
def shaPad (msg : List Nat) : List Nat :=
  msg ++ [0x80] ++ List.replicate ((64 - ((msg.length + 9) % 64)) % 64) 0
      ++ beBytes8 (msg.length * 8)

/-- Groups of 4 bytes into big-endian 32-bit words. -/
def bytesToWords : List Nat → List Nat
  | a :: b :: c :: d :: rest => (((a * 256 + b) * 256 + c) * 256 + d) :: bytesToWords rest
  | _ => []

/-- Groups a word list into blocks of 16 words. -/
def toBlocks16 : List Nat → List (List Nat)
  | w0 :: w1 :: w2 :: w3 :: w4 :: w5 :: w6 :: w7 ::
    w8 :: w9 :: w10 :: w11 :: w12 :: w13 :: w14 :: w15 :: rest =>
      [w0, w1, w2, w3, w4, w5, w6, w7, w8, w9, w10, w11, w12, w13, w14, w15] :: toBlocks16 rest
  | _ => []

/-- Message-schedule extension; `acc` holds the words so far, newest first. -/
def scheduleAux : List Nat → Nat → List Nat
  | acc, 0 => acc.reverse
  | acc, n + 1 =>
      let g := fun i => acc.getD i 0
      let x15 := g 14
      let x2 := g 1
      let s0 := (rotr 7 x15) ^^^ (rotr 18 x15) ^^^ (x15 >>> 3)
      let s1 := (rotr 17 x2) ^^^ (rotr 19 x2) ^^^ (x2 >>> 10)
      scheduleAux (w32 (s1 + g 6 + s0 + g 15) :: acc) n

def schedule (block : List Nat) : List Nat :=
  scheduleAux block.reverse 48

/-- One SHA-256 round; the state is the 8-word working list `[a,b,c,d,e,f,g,h]`. -/
def stepRound (st : List Nat) (wk : Nat × Nat) : List Nat :=
  let a := st.getD 0 0
  let b := st.getD 1 0
  let c := st.getD 2 0
  let d := st.getD 3 0
  let e := st.getD 4 0
  let f := st.getD 5 0
  let g := st.getD 6 0
  let h := st.getD 7 0
  let bigS1 := (rotr 6 e) ^^^ (rotr 11 e) ^^^ (rotr 25 e)
  let ch := (e &&& f) ^^^ ((e ^^^ mask32) &&& g)
  let t1 := w32 (h + bigS1 + ch + wk.2 + wk.1)
  let bigS0 := (rotr 2 a) ^^^ (rotr 13 a) ^^^ (rotr 22 a)
  let mj := (a &&& b) ^^^ (a &&& c) ^^^ (b &&& c)
  let t2 := w32 (bigS0 + mj)
  [w32 (t1 + t2), a, b, c, w32 (d + t1), e, f, g]

/-- Compression of one 16-word block into the 8-word chaining state. -/
def compress (h : List Nat) (block : List Nat) : List Nat :=
  let st := ((schedule block).zip shaK).foldl stepRound h
  [w32 (h.getD 0 0 + st.getD 0 0), w32 (h.getD 1 0 + st.getD 1 0),
   w32 (h.getD 2 0 + st.getD 2 0), w32 (h.getD 3 0 + st.getD 3 0),
   w32 (h.getD 4 0 + st.getD 4 0), w32 (h.getD 5 0 + st.getD 5 0),
   w32 (h.getD 6 0 + st.getD 6 0), w32 (h.getD 7 0 + st.getD 7 0)]

def wordsToBytes : List Nat → List Nat
  | [] => []
  | wd :: rest => beBytes4 wd ++ wordsToBytes rest

/-- SHA-256 of a byte string, as 32 bytes. -/
def sha256 (msg : List Nat) : List Nat :=
  wordsToBytes ((toBlocks16 (bytesToWords (shaPad msg))).foldl compress shaH0)

/-! ## Common byte helpers -/

/-- The all-zero 32-byte value `[0u8; 32]`. -/
def zero32 : List Nat := List.replicate 32 0

/-- `hash_pair(l, r) = SHA-256(l ‖ r)`, the Merkle compression used throughout. -/
def hashPair (l r : List Nat) : List Nat := sha256 (l ++ r)

/-- Little-endian byte encoding of `n` on `w` bytes (`to_le_bytes`). -/
def leBytes : Nat → Nat → List Nat
  | 0, _ => []
  | wd + 1, n => (n % 256) :: leBytes wd (n / 256)

/-- Little-endian byte decoding (`from_le_bytes`). -/
def leToNat : List Nat → Nat
  | [] => 0
  | b :: rest => b + 256 * leToNat rest

/-- The shared Merkle-path fold: walk `(sibling, is_right)` pairs upward,
hashing `(sibling, current)` when the current node is a right child and
`(current, sibling)` otherwise.  This is the loop body of
`WithdrawalProcessor::verify_merkle_inclusion`, `AssociationSetProvider::verify_proof`
and `AuditTrail::verify_inclusion`. -/
def foldPath (leaf : List Nat) (path : List (List Nat)) (indices : List Bool) : List Nat :=
  (path.zip indices).foldl
    (fun current si => if si.2 then hashPair si.1 current else hashPair current si.1) leaf

/-- SCALE compact length encoding (`parity-scale-codec`). -/
def scaleCompact (n : Nat) : List Nat :=
  if n < 64 then [n * 4]
  else if n < 16384 then leBytes 2 (n * 4 + 1)
  else if n < 1073741824 then leBytes 4 (n * 4 + 2)
  else
    let len := Nat.log 256 n + 1
    (3 + 4 * (len - 4)) :: leBytes len n

/-! ## phat-contract: `state.rs` — `EncryptedState` -/

/-- The phat-contract error enum (`src/phat-contract/src/lib.rs`). -/
inductive Error where
  | NotAuthorized
  | InvalidProof
  | NullifierAlreadyUsed
  | InsufficientFunds
  | InvalidMerkleProof
  | EncryptionError
  | DecryptionError
  | AttestationFailed
  | EVMCallFailed
  | InvalidRequest
  | StateCorrupted
deriving DecidableEq, Repr

structure EncryptedState where
  contract_key : List Nat
  state_version : Nat
  commitment_count : Nat
  last_update : Nat
deriving DecidableEq, Repr

/-- The fixed key seed, the ASCII bytes of `"key_seed_for_testing_only_v1.0.0"`. -/
def keySeed : List Nat :=
  [0x6b, 0x65, 0x79, 0x5f, 0x73, 0x65, 0x65, 0x64,
   0x5f, 0x66, 0x6f, 0x72, 0x5f, 0x74, 0x65, 0x73,
   0x74, 0x69, 0x6e, 0x67, 0x5f, 0x6f, 0x6e, 0x6c,
   0x79, 0x5f, 0x76, 0x31, 0x2e, 0x30, 0x2e, 0x30]

/-- `EncryptedState::new()`: contract key derived from the fixed seed. -/
def EncryptedState.new : EncryptedState :=
  { contract_key := sha256 keySeed, state_version := 1, commitment_count := 0, last_update := 0 }

/-- `#[derive(Default)]` for `EncryptedState`: all fields zero. -/
def EncryptedState.defaultState : EncryptedState :=
  { contract_key := zero32, state_version := 0, commitment_count := 0, last_update := 0 }

/-- SCALE encoding of `EncryptedState` (fixed array raw, integers little-endian). -/
def EncryptedState.encode (s : EncryptedState) : List Nat :=
  s.contract_key ++ leBytes 4 s.state_version ++ leBytes 8 s.commitment_count
    ++ leBytes 8 s.last_update

/-- SCALE decoding of `EncryptedState`; fails when fewer than 52 bytes remain,
ignores trailing bytes (as `Decode::decode` on a slice does). -/
def EncryptedState.decode (b : List Nat) : Option EncryptedState :=
  if 52 ≤ b.length then
    some { contract_key := b.take 32,
           state_version := leToNat ((b.drop 32).take 4),
           commitment_count := leToNat ((b.drop 36).take 8),
           last_update := leToNat ((b.drop 44).take 8) }
  else none

/-- The XOR keystream: byte `i` of the data XORed with byte `i % 32` of the key. -/
def xorTile (key : List Nat) : Nat → List Nat → List Nat
  | _, [] => []
  | i, b :: rest => (b ^^^ key.getD (i % 32) 0) :: xorTile key (i + 1) rest

/-- `EncryptedState::encrypt`: magic prefix `E0 01 00 00`, then the XOR-encoded
canonical struct encoding.  (The Rust returns `Result` but never errors.) -/
def EncryptedState.encrypt (s : EncryptedState) : List Nat :=
  [0xE0, 0x01, 0x00, 0x00] ++ xorTile s.contract_key 0 s.encode

/-- `EncryptedState::decrypt`: rejects inputs shorter than 4 bytes, checks only
bytes 0 and 1 of the magic (`encrypted[0] != 0xE0 || encrypted[1] != 0x01`),
strips the 4-byte prefix, XOR-decodes with the key of a freshly derived
`EncryptedState::new()`, and parses. -/
def EncryptedState.decrypt (encrypted : List Nat) : Except Error EncryptedState :=
  if encrypted.length < 4 then .error .DecryptionError
  else if encrypted.getD 0 0 ≠ 0xE0 ∨ encrypted.getD 1 0 ≠ 0x01 then .error .DecryptionError
  else
    match EncryptedState.decode (xorTile EncryptedState.new.contract_key 0 (encrypted.drop 4)) with
    | some s => .ok s
    | none => .error .DecryptionError

/-! ## phat-contract: `processor.rs` — `WithdrawalProcessor` -/

structure WithdrawalRequest where
  commitment : List Nat
  nullifier : List Nat
  recipient : List Nat
  amount : Nat
  merkle_proof : List (List Nat)
  proof_indices : List Bool
deriving DecidableEq, Repr

structure WithdrawalResponse where
  success : Bool
  tx_hash : Option (List Nat)
  zk_proof : List Nat
  tee_attestation : List Nat
  error : Option Error
deriving DecidableEq, Repr

structure WithdrawalProcessor where
  commitment_root : List Nat
  vault_address : List Nat
deriving DecidableEq, Repr

/-- `validate_request`: `amount > 0`, non-empty proof, matching lengths. -/
def validateRequest (r : WithdrawalRequest) : Except Error Unit :=
  if r.amount = 0 then .error .InvalidRequest
  else if r.merkle_proof = [] then .error .InvalidMerkleProof
  else if r.merkle_proof.length ≠ r.proof_indices.length then .error .InvalidMerkleProof
  else .ok ()

/-- `verify_merkle_inclusion`: fold the leaf up the path and compare to the root. -/
def verifyMerkleInclusion (p : WithdrawalProcessor) (leaf : List Nat)
    (proof : List (List Nat)) (indices : List Bool) : Bool :=
  decide (foldPath leaf proof indices = p.commitment_root)

/-- The ASCII bytes of `b"nullifier"`. -/
def nullifierTag : List Nat := [0x6e, 0x75, 0x6c, 0x6c, 0x69, 0x66, 0x69, 0x65, 0x72]

/-- `verify_nullifier_derivation`: the first 16 bytes of
`SHA-256("nullifier" ‖ commitment)` must equal the first 16 bytes of the nullifier. -/
def verifyNullifierDerivation (commitment nullifier : List Nat) : Bool :=
  decide ((sha256 (nullifierTag ++ commitment)).take 16 = nullifier.take 16)

/-- `generate_zk_proof`: the 256-byte envelope
`0x01 ‖ proof_hash ‖ merkle_root ‖ nullifier ‖ 159 zero bytes`. -/
def generateZkProof (p : WithdrawalProcessor) (r : WithdrawalRequest) : List Nat :=
  [0x01]
    ++ sha256 (r.commitment ++ r.nullifier ++ r.recipient ++ leBytes 16 r.amount
                ++ p.commitment_root)
    ++ p.commitment_root ++ r.nullifier ++ List.replicate 159 0

/-- `WithdrawalProcessor::generate_withdrawal_proof`. -/
def generateWithdrawalProof (p : WithdrawalProcessor) (r : WithdrawalRequest) :
    Except Error (List Nat × Bool) :=
  match validateRequest r with
  | .error e => .error e
  | .ok _ =>
    if verifyMerkleInclusion p r.commitment r.merkle_proof r.proof_indices = false then
      .error .InvalidMerkleProof
    else if verifyNullifierDerivation r.commitment r.nullifier = false then
      .error .InvalidProof
    else
      .ok (generateZkProof p r, true)

/-- The branching skeleton of `generate_withdrawal_proof`, abstracted over the
values of its three checks and the emitted proof; `generateWithdrawalProof` is
definitionally `gwpShape` applied to the corresponding subterms (see
`gwp_eq_shape`). -/
def gwpShape (v : Except Error Unit) (b c : Bool) (z : List Nat) :
    Except Error (List Nat × Bool) :=
  match v with
  | .error e => .error e
  | .ok _ =>
    if b = false then .error .InvalidMerkleProof
    else if c = false then .error .InvalidProof
    else .ok (z, true)

/-! ## phat-contract: `lib.rs` — the `PrivacyVaultTee` contract -/

structure AuditEntryPhat where
  timestamp : Nat
  entry_hash : List Nat
  encrypted_details : List Nat
  tee_attestation : List Nat
deriving DecidableEq, Repr

structure ComplianceProof where
  deposit_commitment : List Nat
  association_root : List Nat
  zk_proof : List Nat
  asp_signature : List Nat
  timestamp : Nat
deriving DecidableEq, Repr

structure Vault where
  owner : Nat
  evm_vault_address : List Nat
  evm_chain_id : Nat
  encrypted_state : List Nat
  commitment_root : List Nat
  nullifier_set : List (List Nat)
  asp_registry : List Nat
  audit_log : List AuditEntryPhat
  initialized : Bool
deriving DecidableEq, Repr

/-- `get_enclave_id`: the 20-byte vault address padded to 32 bytes. -/
def enclaveId (s : Vault) : List Nat :=
  s.evm_vault_address ++ List.replicate 12 0

/-- SCALE encoding of `AttestationReport {data_hash, timestamp, enclave_id, signature}`. -/
def encodeAttestationReport (dataHash : List Nat) (timestamp : Nat)
    (enclave : List Nat) (signature : List Nat) : List Nat :=
  dataHash ++ leBytes 8 timestamp ++ enclave ++ scaleCompact signature.length ++ signature

/-- `generate_tee_attestation`: report over
`SHA-256(commitment ‖ nullifier ‖ proof ‖ commitment_root)`, empty signature. -/
def generateTeeAttestation (s : Vault) (r : WithdrawalRequest) (proof : List Nat)
    (now : Nat) : List Nat :=
  encodeAttestationReport
    (sha256 (r.commitment ++ r.nullifier ++ proof ++ s.commitment_root)) now (enclaveId s) []

/-- `generate_attestation_report`: report over the current commitment root. -/
def generateAttestationReport (s : Vault) (now : Nat) : List Nat :=
  encodeAttestationReport s.commitment_root now (enclaveId s) []

/-- The entry pushed by `log_audit_entry`: hash of `commitment ‖ amount-LE16`,
SCALE-encoded `AuditDetails {commitment, amount, recipient_hash}`, attestation report. -/
def mkAuditEntry (s : Vault) (r : WithdrawalRequest) (now : Nat) : AuditEntryPhat :=
  { timestamp := now,
    entry_hash := sha256 (r.commitment ++ leBytes 16 r.amount),
    encrypted_details := r.commitment ++ leBytes 16 r.amount ++ sha256 r.recipient,
    tee_attestation := generateAttestationReport s now }

/-- `process_withdrawal`, from the decoded request on (the SCALE decoding of the
wire request in `decrypt_request` is outside this model; the claims quantify over
requests).  `now` stands for `untrusted_millis_since_unix_epoch`.  Returns the
result together with the contract state after the call. -/
def processWithdrawal (s : Vault) (r : WithdrawalRequest) (now : Nat) :
    Except Error WithdrawalResponse × Vault :=
  if s.initialized = false then (.error .StateCorrupted, s)
  else match EncryptedState.decrypt s.encrypted_state with
  | .error _ => (.error .DecryptionError, s)
  | .ok _ =>
    if r.nullifier ∈ s.nullifier_set then (.error .NullifierAlreadyUsed, s)
    else match generateWithdrawalProof ⟨s.commitment_root, s.evm_vault_address⟩ r with
    | .error e => (.error e, s)
    | .ok (zkProof, isValid) =>
      if isValid = false then (.error .InvalidProof, s)
      else
        let s1 := { s with nullifier_set := s.nullifier_set ++ [r.nullifier] }
        let attestation := generateTeeAttestation s1 r zkProof now
        let s2 := { s1 with audit_log := s1.audit_log ++ [mkAuditEntry s1 r now] }
        (.ok { success := true, tx_hash := none, zk_proof := zkProof,
               tee_attestation := attestation, error := none }, s2)

/-- The branching skeleton of `process_withdrawal`, abstracted over the values
of its guards; `processWithdrawal` is definitionally `pwShape` applied to the
corresponding subterms (see `pw_eq_shape`). -/
def pwShape (init : Bool) (dec : Except Error EncryptedState) (memP : Prop)
    [Decidable memP] (g : Except Error (List Nat × Bool)) (s : Vault)
    (k : List Nat → Except Error WithdrawalResponse × Vault) :
    Except Error WithdrawalResponse × Vault :=
  if init = false then (.error .StateCorrupted, s)
  else match dec with
  | .error _ => (.error .DecryptionError, s)
  | .ok _ =>
    if memP then (.error .NullifierAlreadyUsed, s)
    else match g with
    | .error e => (.error e, s)
    | .ok (zkProof, isValid) =>
      if isValid = false then (.error .InvalidProof, s)
      else k zkProof

/-- `generate_compliance_proof`: requires initialization and a registered ASP id;
`get_asp_root` always returns the zero root; the `zk_proof` field is the SCALE
encoding of `AssociationProofData {commitment, association_root, deposit_root}`. -/
def generateComplianceProof (s : Vault) (commitment : List Nat) (asp : Nat)
    (now : Nat) : Except Error ComplianceProof :=
  if s.initialized = false then .error .StateCorrupted
  else if asp ∈ s.asp_registry then
    .ok { deposit_commitment := commitment,
          association_root := zero32,
          zk_proof := commitment ++ zero32 ++ s.commitment_root,
          asp_signature := [],
          timestamp := now }
  else .error .NotAuthorized

/-! ## compliance: `asp_provider.rs` — `AssociationSetProvider` -/

/-- `ASPError` (`src/compliance/src/asp_provider.rs`): note there is no
`CapacityExceeded` variant. -/
inductive ASPError where
  | CommitmentNotFound
  | CommitmentExcluded
  | InvalidProof
  | NotInitialized
deriving DecidableEq, Repr

inductive PatternType where
  | ExactMatch
  | PrefixMatch
  | RegexMatch
deriving DecidableEq, Repr

structure ExclusionPattern where
  pattern_type : PatternType
  data : List Nat
deriving DecidableEq, Repr

structure ExclusionList where
  addresses : List (List Nat)
  patterns : List ExclusionPattern
deriving DecidableEq, Repr

def ExclusionList.new : ExclusionList := { addresses := [], patterns := [] }

/-- `matches_pattern`: exact equality, byte-prefix, or (reserved) regex → false. -/
def matchesPattern (commitment : List Nat) (p : ExclusionPattern) : Bool :=
  match p.pattern_type with
  | PatternType.ExactMatch => decide (commitment = p.data)
  | PatternType.PrefixMatch => decide (p.data <+: commitment)
  | PatternType.RegexMatch => false

/-- `ExclusionList::is_excluded`. -/
def ExclusionList.isExcluded (e : ExclusionList) (commitment : List Nat) : Bool :=
  decide (commitment ∈ e.addresses) || e.patterns.any (matchesPattern commitment)

/-- Fuelled ceiling base-2 logarithm (structural, so that concrete provider
states evaluate in the kernel). -/
def ceilLog2Aux : Nat → Nat → Nat
  | 0, _ => 0
  | fuel + 1, n => if n ≤ 1 then 0 else ceilLog2Aux fuel ((n + 1) / 2) + 1

/-- `(len as f64).log2().ceil() as usize` of `rebuild_merkle_tree`, i.e.
`⌈log₂ n⌉` (the float computation is exact on the sizes in range). -/
def ceilLog2 (n : Nat) : Nat := ceilLog2Aux n n

structure MerkleProofC where
  path : List (List Nat)
  indices : List Bool
  root : List Nat
deriving DecidableEq, Repr

/-- `AssociationSetProvider` state.  `approved` models the `HashSet` (kept
duplicate-free by the operations), `indicesMap` models the `HashMap` as an
association list whose most recent binding shadows older ones, `nodes` is
`merkle_nodes` (level 0 = leaves). -/
structure ASPState where
  max_set_size : Nat
  approved : List (List Nat)
  indicesMap : List (List Nat × Nat)
  nodes : List (List (List Nat))
  root : List Nat
  exclusion : ExclusionList
deriving DecidableEq, Repr

/-- `AssociationSetProvider::new`. -/
def ASPState.new (maxSetSize : Nat) : ASPState :=
  { max_set_size := maxSetSize, approved := [], indicesMap := [],
    nodes := [[]], root := zero32, exclusion := ExclusionList.new }

/-- One pairing step of `rebuild_merkle_tree`'s level loop: adjacent pairs,
a missing right sibling replaced by the zero leaf. -/
def buildLayer : List (List Nat) → List (List Nat)
  | [] => []
  | [x] => [hashPair x zero32]
  | x :: y :: rest => hashPair x y :: buildLayer rest

/-- The list of levels produced from `base` by `n` pairing steps (base first). -/
def buildLevels (base : List (List Nat)) : Nat → List (List (List Nat))
  | 0 => [base]
  | n + 1 => base :: buildLevels (buildLayer base) n

/-- `rebuild_merkle_tree`: on empty leaves only zero the root (the node table is
left as is); otherwise pad the leaf level to the next power of two, rebuild all
levels, and take the root from the top level. -/
def rebuildTree (s : ASPState) : ASPState :=
  let leaves := s.nodes.headD []
  if leaves.isEmpty then { s with root := zero32 }
  else
    let depth := ceilLog2 leaves.length + 1
    let target := 2 ^ (depth - 1)
    let padded := leaves ++ List.replicate (target - leaves.length) zero32
    let lvls := buildLevels padded (depth - 1)
    { s with nodes := lvls, root := (lvls.getLast?.bind List.head?).getD zero32 }

/-- Replace level 0 of the node table. -/
def setLeaves (nodes : List (List (List Nat))) (l : List (List Nat)) :
    List (List (List Nat)) :=
  match nodes with
  | [] => [l]
  | _ :: rest => l :: rest

/-- `add_commitment`: exclusion check, capacity check (which returns
`InvalidProof`!), insert at index `approved_set.len()`, write the leaf, rebuild.
Returned with the provider state after the call. -/
def addCommitment (s : ASPState) (c : List Nat) : Except ASPError Nat × ASPState :=
  if s.exclusion.isExcluded c then (.error .CommitmentExcluded, s)
  else if s.max_set_size ≤ s.approved.length then (.error .InvalidProof, s)
  else
    let index := s.approved.length
    let approved' := if c ∈ s.approved then s.approved else s.approved ++ [c]
    let leaves := s.nodes.headD []
    let leaves' := if leaves.length ≤ index then leaves ++ [c] else leaves.set index c
    let s' := rebuildTree { s with approved := approved',
                                   indicesMap := (c, index) :: s.indicesMap,
                                   nodes := setLeaves s.nodes leaves' }
    (.ok index, s')

/-- `remove_commitment`: membership removal plus rebuild; the leaf level is
never touched. -/
def removeCommitment (s : ASPState) (c : List Nat) : Bool × ASPState :=
  if c ∈ s.approved then
    (true, rebuildTree { s with approved := s.approved.erase c,
                                indicesMap := s.indicesMap.filter (fun p => p.1 ≠ c) })
  else (false, s)

/-- `is_approved`. -/
def isApproved (s : ASPState) (c : List Nat) : Bool :=
  decide (c ∈ s.approved) && !(s.exclusion.isExcluded c)

/-- The sibling-collection loop of `generate_proof`, over all levels but the last. -/
def pathLoop : List (List (List Nat)) → Nat → List (List Nat) × List Bool
  | [], _ => ([], [])
  | lvl :: rest, idx =>
    let isRight := idx % 2 = 1
    let sibIdx := if isRight then idx - 1 else idx + 1
    let sibling := if sibIdx < lvl.length then lvl.getD sibIdx zero32 else zero32
    let (p, ind) := pathLoop rest (idx / 2)
    (sibling :: p, isRight :: ind)

/-- `AssociationSetProvider::generate_proof`. -/
def generateProofASP (s : ASPState) (c : List Nat) : Except ASPError MerkleProofC :=
  if c ∉ s.approved then .error .CommitmentNotFound
  else if s.exclusion.isExcluded c then .error .CommitmentExcluded
  else
    match s.indicesMap.lookup c with
    | none => .error .CommitmentNotFound
    | some index =>
      let (path, ind) := pathLoop s.nodes.dropLast index
      .ok { path := path, indices := ind, root := s.root }

/-- `AssociationSetProvider::verify_proof`: fold, then the dual root check. -/
def verifyProofASP (s : ASPState) (c : List Nat) (proof : MerkleProofC) : Bool :=
  decide (foldPath c proof.path proof.indices = proof.root) && decide (proof.root = s.root)

/-- `set_exclusion_list`: replace the predicate and rebuild. -/
def setExclusionList (s : ASPState) (list : ExclusionList) : ASPState :=
  rebuildTree { s with exclusion := list }

/-! ## compliance: `audit_trail.rs` — inclusion proofs -/

inductive OperationType where
  | Deposit
  | Withdrawal
  | ComplianceCheck
  | ASPUpdate
deriving DecidableEq, Repr

structure AuditEntryC where
  id : List Nat
  timestamp : Nat
  operation_type : OperationType
  commitment_hash : List Nat
  encrypted_details : List Nat
  tee_attestation : List Nat
  merkle_index : Nat
deriving DecidableEq, Repr

structure InclusionProof where
  entry_hash : List Nat
  path : List (List Nat)
  indices : List Bool
  root : List Nat
deriving DecidableEq, Repr

/-- The fields of `compliance::AuditTrail` relevant to inclusion verification. -/
structure AuditTrailState where
  entries : List AuditEntryC
  merkle_root : List Nat
  entry_count : Nat
deriving DecidableEq, Repr

/-- `AuditTrail::verify_inclusion`: fold the entry hash up the path; true iff the
fold equals `proof.root` and `proof.root` equals the trail's current root. -/
def verifyInclusion (t : AuditTrailState) (proof : InclusionProof) : Bool :=
  decide (foldPath proof.entry_hash proof.path proof.indices = proof.root)
    && decide (proof.root = t.merkle_root)

/-! ## Decidability of result equality -/

instance instDecEqExcept {ε α : Type} [DecidableEq ε] [DecidableEq α] :
    DecidableEq (Except ε α) := fun a b =>
  match a, b with
  | .error x, .error y =>
    if h : x = y then .isTrue (by rw [h]) else .isFalse (by simp [h])
  | .ok x, .ok y =>
    if h : x = y then .isTrue (by rw [h]) else .isFalse (by simp [h])
  | .error _, .ok _ => .isFalse (by simp)
  | .ok _, .error _ => .isFalse (by simp)

/-! ## Concrete scenario data used by witnesses and counterexamples -/

/-- The 32-byte value all of whose bytes are `b` (`[b; 32]` in the tests). -/
def rep32 (b : Nat) : List Nat := List.replicate 32 b

/-- Provider after `add_commitment([1;32])` on a fresh default-capacity provider. -/
def aspA : ASPState := (addCommitment (ASPState.new 1000000) (rep32 1)).2

/-- ... then `add_commitment([2;32])`. -/
def aspB : ASPState := (addCommitment aspA (rep32 2)).2

/-- ... then `remove_commitment([1;32])`. -/
def aspC : ASPState := (removeCommitment aspB (rep32 1)).2

/-- ... then `add_commitment([3;32])`: `[3;32]` is assigned index
`approved_set.len() = 1`, the index `[2;32]` still holds, and leaf 1 is
overwritten. -/
def aspCollided : ASPState := (addCommitment aspC (rep32 3)).2

/-- A provider holding one commitment `[0xBA; 32]` which is then put on the
exclusion list. -/
def aspExcludedMember : ASPState :=
  setExclusionList (addCommitment (ASPState.new 1000000) (rep32 0xBA)).2
    { addresses := [rep32 0xBA], patterns := [] }

/-- A fresh provider whose exclusion list bans `[0xBA; 32]`. -/
def aspBanned : ASPState :=
  setExclusionList (ASPState.new 5) { addresses := [rep32 0xBA], patterns := [] }

/-- A provider holding the single commitment `[0x44; 32]`. -/
def aspSingle : ASPState :=
  (addCommitment (ASPState.new 100) (rep32 0x44)).2

/-- Witness withdrawal data: a commitment, one sibling, the root they fold to,
and a correctly derived nullifier. -/
def comW : List Nat := rep32 0x11

def sibW : List Nat := rep32 0x22

def rootW : List Nat := hashPair comW sibW

def nulW : List Nat := (sha256 (nullifierTag ++ comW)).take 16 ++ List.replicate 16 0xAB

/-- A nullifier equal to `nulW` in bytes 0..16 but different in bytes 16..32. -/
def nulW2 : List Nat := (sha256 (nullifierTag ++ comW)).take 16 ++ List.replicate 16 0xCD

/-- A nullifier whose low 16 bytes do not match the derivation. -/
def nulBad : List Nat := rep32 0x55

def reqW : WithdrawalRequest :=
  { commitment := comW, nullifier := nulW, recipient := List.replicate 20 0x33,
    amount := 1000000, merkle_proof := [sibW], proof_indices := [false] }

def reqW2 : WithdrawalRequest := { reqW with nullifier := nulW2 }

def reqBad : WithdrawalRequest := { reqW with nullifier := nulBad }

def procW : WithdrawalProcessor :=
  { commitment_root := rootW, vault_address := List.replicate 20 0xEE }

/-- An initialized vault whose deposit root admits `reqW`. -/
def vaultW : Vault :=
  { owner := 0, evm_vault_address := List.replicate 20 0xEE, evm_chain_id := 1,
    encrypted_state := EncryptedState.new.encrypt, commitment_root := rootW,
    nullifier_set := [], asp_registry := [7], audit_log := [], initialized := true }

/-- An initialized vault with ASP id 7 registered, for the compliance claims. -/
def vault5 : Vault :=
  { owner := 0, evm_vault_address := List.replicate 20 0, evm_chain_id := 1,
    encrypted_state := [], commitment_root := rep32 0xCC, nullifier_set := [],
    asp_registry := [7], audit_log := [], initialized := true }

/-- An input to `decrypt` whose magic bytes 2 and 3 are wrong but which still
decrypts, because only bytes 0 and 1 are checked. -/
def badMagic : List Nat :=
  [0xE0, 0x01, 0xFF, 0xFF] ++ xorTile (sha256 keySeed) 0 EncryptedState.new.encode

/-! ## Basic lemmas -/

theorem sha256_empty : sha256 [] =
    [227, 176, 196, 66, 152, 252, 28, 20, 154, 251, 244, 200, 153, 111, 185, 36,
     39, 174, 65, 228, 100, 155, 147, 76, 164, 149, 153, 27, 120, 82, 184, 85] := by
  decide

theorem sha256_abc : sha256 [97, 98, 99] =
    [186, 120, 22, 191, 143, 1, 207, 234, 65, 65, 64, 222, 93, 174, 34, 35,
     176, 3, 97, 163, 150, 23, 122, 156, 180, 16, 255, 97, 242, 0, 21, 173] := by
  decide

theorem ceilLog2Aux_eq_clog : ∀ fuel n, n ≤ fuel → ceilLog2Aux fuel n = Nat.clog 2 n := by
  intro fuel
  induction fuel with
  | zero =>
    intro n hn
    interval_cases n
    simp [ceilLog2Aux]
  | succ f ih =>
    intro n hn
    by_cases h1 : n ≤ 1
    · simp [ceilLog2Aux, h1, Nat.clog_of_right_le_one h1]
    · have h2 : 2 ≤ n := by omega
      have hrec : Nat.clog 2 n = Nat.clog 2 ((n + 1) / 2) + 1 := by
        simpa using Nat.clog_of_two_le (by norm_num) h2
      have hfuel : (n + 1) / 2 ≤ f := by omega
      simp [ceilLog2Aux, h1, ih _ hfuel, hrec]

theorem ceilLog2_eq_clog (n : Nat) : ceilLog2 n = Nat.clog 2 n :=
  ceilLog2Aux_eq_clog n n le_rfl

theorem ceilLog2_pow (k : Nat) : ceilLog2 (2 ^ k) = k := by
  rw [ceilLog2_eq_clog]
  exact Nat.clog_pow 2 k (by norm_num)

theorem le_pow_ceilLog2 (n : Nat) : n ≤ 2 ^ ceilLog2 n := by
  rw [ceilLog2_eq_clog]
  exact Nat.le_pow_clog (by norm_num) n

theorem compress_length (h b : List Nat) : (compress h b).length = 8 := rfl

theorem foldl_compress_length (blocks : List (List Nat)) (h : List Nat)
    (hh : h.length = 8) : (blocks.foldl compress h).length = 8 := by
  induction blocks generalizing h with
  | nil => simpa using hh
  | cons b rest ih => exact ih _ (compress_length h b)

theorem wordsToBytes_length (ws : List Nat) : (wordsToBytes ws).length = 4 * ws.length := by
  induction ws with
  | nil => rfl
  | cons w rest ih => simp [wordsToBytes, beBytes4, ih]; ring

/-- SHA-256 always produces 32 bytes. -/
theorem sha256_length (m : List Nat) : (sha256 m).length = 32 := by
  unfold sha256
  rw [wordsToBytes_length, foldl_compress_length _ _ (by rfl)]

theorem take_app {α : Type} (a b : List α) (n : Nat) (h : a.length = n) :
    (a ++ b).take n = a := by
  subst h; exact List.take_left a b

theorem drop_app {α : Type} (a b : List α) (n : Nat) (h : a.length = n) :
    (a ++ b).drop n = b := by
  subst h; exact List.drop_left a b

theorem leBytes_length (w n : Nat) : (leBytes w n).length = w := by
  induction w generalizing n with
  | zero => rfl
  | succ k ih => simp [leBytes, ih]

theorem leToNat_leBytes (w n : Nat) (h : n < 2 ^ (8 * w)) :
    leToNat (leBytes w n) = n := by
  induction w generalizing n with
  | zero => simp at h; simp [leBytes, leToNat, h]
  | succ k ih =>
    have hdiv : n / 256 < 2 ^ (8 * k) := by
      rw [Nat.div_lt_iff_lt_mul (by norm_num)]
      calc n < 2 ^ (8 * (k + 1)) := h
        _ = 2 ^ (8 * k) * 256 := by ring
    simp only [leBytes, leToNat, ih _ hdiv]
    omega

/-! ## C8: dual root check in `verify_proof` / `verify_inclusion` -/

/-- C8: ASP `verify_proof` and audit-journal `verify_inclusion` return true iff
the fold of the leaf along `(path, indices)` under `hashPair` equals the proof's
root and that root equals the structure's current root; in particular a proof
whose root differs from the current root never verifies. -/
theorem c8_dual_root_check (s : ASPState) (t : AuditTrailState) (c : List Nat)
    (p : MerkleProofC) (ip : InclusionProof) :
    (verifyProofASP s c p = true ↔
      (foldPath c p.path p.indices = p.root ∧ p.root = s.root)) ∧
    (verifyInclusion t ip = true ↔
      (foldPath ip.entry_hash ip.path ip.indices = ip.root ∧ ip.root = t.merkle_root)) ∧
    (p.root ≠ s.root → verifyProofASP s c p = false) ∧
    (ip.root ≠ t.merkle_root → verifyInclusion t ip = false) := by
  refine ⟨?_, ?_, ?_, ?_⟩
  · simp [verifyProofASP]
  · simp [verifyInclusion]
  · intro hne
    simp [verifyProofASP, hne]
  · intro hne
    simp [verifyInclusion, hne]

/-- C8 witness: stale-root proofs are rejected by both verifiers at concrete inputs. -/
theorem c8_witness :
    verifyProofASP (ASPState.new 10) zero32 ⟨[], [], rep32 9⟩ = false ∧
    verifyInclusion ⟨[], zero32, 0⟩ ⟨zero32, [], [], rep32 9⟩ = false :=
  ⟨(c8_dual_root_check (ASPState.new 10) ⟨[], zero32, 0⟩ zero32 ⟨[], [], rep32 9⟩
      ⟨zero32, [], [], rep32 9⟩).2.2.1 (by decide),
   (c8_dual_root_check (ASPState.new 10) ⟨[], zero32, 0⟩ zero32 ⟨[], [], rep32 9⟩
      ⟨zero32, [], [], rep32 9⟩).2.2.2 (by decide)⟩

/-! ## C7: capacity error kind -/

/-- C7 counterexample: on a full provider, `add_commitment` fails with
`InvalidProof`, not `CapacityExceeded` — indeed the source's `ASPError` has only
the four variants enumerated here, none named `CapacityExceeded`.  The failed
call leaves the state unchanged. -/
theorem c7_counterexample :
    addCommitment (ASPState.new 0) (rep32 5) = (.error .InvalidProof, ASPState.new 0) ∧
    (∀ e : ASPError, e = .CommitmentNotFound ∨ e = .CommitmentExcluded ∨
      e = .InvalidProof ∨ e = .NotInitialized) := by
  refine ⟨by decide, ?_⟩
  intro e
  cases e <;> simp

/-- C7 (amended): adding a non-excluded commitment to a provider already holding
`max_set_size` commitments fails with the error kind `InvalidProof` (the source's
error enum has no `CapacityExceeded`), and the approved set, index map and tree
are unchanged by the failed call. -/
theorem c7_capacity_error (s : ASPState) (c : List Nat)
    (hx : s.exclusion.isExcluded c = false)
    (hfull : s.approved.length = s.max_set_size) :
    addCommitment s c = (.error .InvalidProof, s) := by
  simp [addCommitment, hx, hfull]

/-- C7 witness. -/
theorem c7_witness : addCommitment (ASPState.new 0) (rep32 6) = (.error .InvalidProof, ASPState.new 0) :=
  c7_capacity_error (ASPState.new 0) (rep32 6) (by decide) (by decide)

/-! ## C6: exclusion list vs approved set -/

/-- C6 counterexample: after `add_commitment([0xBA;32])` followed by
`set_exclusion_list` banning that very value, the commitment is matched by the
current exclusion list AND still a member of the approved set — the claimed
invariant I2 fails on this reachable state. -/
theorem c6_counterexample :
    aspExcludedMember.exclusion.isExcluded (rep32 0xBA) = true ∧
    rep32 0xBA ∈ aspExcludedMember.approved := by
  constructor
  · decide
  · decide

/-- C6 (amended): a commitment matched by the current exclusion list can never
be (re-)added — `add_commitment` rejects it with `CommitmentExcluded` and leaves
the state unchanged — and `is_approved` reports it unapproved; however
`set_exclusion_list` does not purge existing members, so an excluded commitment
may remain inside the stored approved set. -/
theorem c6_excluded_never_added (s : ASPState) (c : List Nat)
    (h : s.exclusion.isExcluded c = true) :
    addCommitment s c = (.error .CommitmentExcluded, s) ∧ isApproved s c = false := by
  constructor
  · simp [addCommitment, h]
  · simp [isApproved, h]

/-- C6 witness. -/
theorem c6_witness :
    addCommitment aspBanned (rep32 0xBA) = (.error .CommitmentExcluded, aspBanned) ∧
    isApproved aspBanned (rep32 0xBA) = false :=
  c6_excluded_never_added aspBanned (rep32 0xBA) (by decide)

/-! ## C5: compliance proof envelope -/

/-- C5 counterexample: the emitted compliance proof is the 96-byte SCALE
encoding `commitment ‖ association_root ‖ deposit_root`; it is not 97 bytes and
its first byte is the commitment's first byte, not the version `0x02`; and it is
emitted for an arbitrary commitment without any `is_approved` consultation (the
contract state carries no approved set at all). -/
theorem c5_counterexample :
    generateComplianceProof vault5 (rep32 7) 7 99 =
      .ok { deposit_commitment := rep32 7, association_root := zero32,
            zk_proof := rep32 7 ++ zero32 ++ rep32 0xCC, asp_signature := [],
            timestamp := 99 } ∧
    (rep32 7 ++ zero32 ++ rep32 0xCC).length ≠ 97 ∧
    (rep32 7 ++ zero32 ++ rep32 0xCC).getD 0 0 ≠ 0x02 := by
  refine ⟨by decide, by decide, by decide⟩

/-- C5 (amended): `generate_compliance_proof` checks only that the contract is
initialized and the ASP id registered (no `is_approved` check exists); on
success it emits a proof whose `zk_proof` is the 96-byte encoding with bytes
0..32 the commitment, 32..64 the association root returned by `get_asp_root`
(always zero), and 64..96 the deposit root — no version byte and no SHA-256
digest. -/
theorem c5_compliance_envelope (s : Vault) (c : List Nat) (asp : Nat) (t : Nat)
    (hinit : s.initialized = true) (hreg : asp ∈ s.asp_registry) :
    generateComplianceProof s c asp t =
      .ok { deposit_commitment := c, association_root := zero32,
            zk_proof := c ++ zero32 ++ s.commitment_root, asp_signature := [],
            timestamp := t } ∧
    (c.length = 32 → (c ++ zero32 ++ s.commitment_root).length =
      64 + s.commitment_root.length) := by
  constructor
  · simp [generateComplianceProof, hinit, hreg]
  · intro hc
    simp [zero32, hc]
    omega

/-- C5 witness. -/
theorem c5_witness :
    generateComplianceProof vault5 (rep32 9) 7 3 =
      .ok { deposit_commitment := rep32 9, association_root := zero32,
            zk_proof := rep32 9 ++ zero32 ++ rep32 0xCC, asp_signature := [],
            timestamp := 3 } :=
  (c5_compliance_envelope vault5 (rep32 9) 7 3 (by decide) (by decide)).1

/-! ## C2: generate-then-verify round trip -/

/-- C2 (failing input): on the reachable provider state
`add [1;32]; add [2;32]; remove [1;32]; add [3;32]`, every step succeeds —
`[3;32]` is assigned index 1, which `[2;32]` still occupies, and leaf 1 is
silently overwritten — after which `generate_proof([2;32])` succeeds but
verifying the proof it returns against the current root yields `false`,
contradicting spec invariants I7/P1. -/
theorem c2_roundtrip_failure :
    (addCommitment (ASPState.new 1000000) (rep32 1)).1 = .ok 0 ∧
    (addCommitment aspA (rep32 2)).1 = .ok 1 ∧
    (removeCommitment aspB (rep32 1)).1 = true ∧
    (addCommitment aspC (rep32 3)).1 = .ok 1 ∧
    aspCollided.indicesMap.lookup (rep32 2) = some 1 ∧
    generateProofASP aspCollided (rep32 2) =
      .ok ⟨[rep32 1], [true], hashPair (rep32 1) (rep32 3)⟩ ∧
    verifyProofASP aspCollided (rep32 2)
      ⟨[rep32 1], [true], hashPair (rep32 1) (rep32 3)⟩ = false := by
  refine ⟨by decide, by decide, by decide, by decide, by decide, by decide, by decide⟩

/-! ## C10: removal never shrinks the tree -/

theorem buildLevels_head (b : List (List Nat)) (n : Nat) :
    (buildLevels b n).headD [] = b := by
  cases n <;> rfl

theorem rebuildTree_max (s : ASPState) : (rebuildTree s).max_set_size = s.max_set_size := by
  simp only [rebuildTree]
  split <;> rfl

theorem rebuildTree_approved (s : ASPState) : (rebuildTree s).approved = s.approved := by
  simp only [rebuildTree]
  split <;> rfl

theorem rebuildTree_indicesMap (s : ASPState) :
    (rebuildTree s).indicesMap = s.indicesMap := by
  simp only [rebuildTree]
  split <;> rfl

theorem rebuildTree_exclusion (s : ASPState) :
    (rebuildTree s).exclusion = s.exclusion := by
  simp only [rebuildTree]
  split <;> rfl

/-- `rebuild_merkle_tree` reads and writes only the node table and the root, so
it commutes with updates of the approved set and the index map. -/
theorem rebuildTree_comm (s : ASPState) (a : List (List Nat))
    (m : List (List Nat × Nat)) :
    rebuildTree { s with approved := a, indicesMap := m } =
      { rebuildTree s with approved := a, indicesMap := m } := by
  cases s
  simp only [rebuildTree]
  split <;> rfl

/-- The empty-leaves branch of `rebuild_merkle_tree`. -/
theorem rebuildTree_empty (s : ASPState) (h : (s.nodes.headD []).isEmpty = true) :
    rebuildTree s = { s with root := zero32 } := by
  simp only [rebuildTree, h, if_true]

/-- The non-empty branch of `rebuild_merkle_tree`, spelled out. -/
theorem rebuildTree_nonempty (s : ASPState) (h : (s.nodes.headD []).isEmpty = false) :
    rebuildTree s =
      { s with
        nodes := buildLevels
          (s.nodes.headD [] ++
            List.replicate
              (2 ^ ceilLog2 (s.nodes.headD []).length - (s.nodes.headD []).length) zero32)
          (ceilLog2 (s.nodes.headD []).length),
        root := ((buildLevels
          (s.nodes.headD [] ++
            List.replicate
              (2 ^ ceilLog2 (s.nodes.headD []).length - (s.nodes.headD []).length) zero32)
          (ceilLog2 (s.nodes.headD []).length)).getLast?.bind List.head?).getD zero32 } := by
  simp only [rebuildTree, h]
  exact rfl

theorem update_nodes_root_self (t : ASPState) (n : List (List (List Nat)))
    (r : List Nat) (hn : n = t.nodes) (hr : r = t.root) :
    ({ t with nodes := n, root := r } : ASPState) = t := by
  cases t
  simp_all

/-- Rebuilding is idempotent: a second rebuild sees the already padded leaf
level (its length is exactly `2 ^ ⌈log₂ n⌉`) and reproduces the same levels and
root. -/
theorem rebuildTree_idem (s : ASPState) : rebuildTree (rebuildTree s) = rebuildTree s := by
  by_cases h : (s.nodes.headD []).isEmpty = true
  · have h1 : rebuildTree s = { s with root := zero32 } := rebuildTree_empty s h
    have h2 : ((rebuildTree s).nodes.headD []).isEmpty = true := by
      rw [h1]
      exact h
    rw [rebuildTree_empty _ h2, h1]
  · rw [Bool.not_eq_true] at h
    have h1 := rebuildTree_nonempty s h
    have hlenle : (s.nodes.headD []).length ≤ 2 ^ ceilLog2 (s.nodes.headD []).length :=
      le_pow_ceilLog2 _
    have hnodes1 : (rebuildTree s).nodes =
        buildLevels
          (s.nodes.headD [] ++
            List.replicate
              (2 ^ ceilLog2 (s.nodes.headD []).length - (s.nodes.headD []).length) zero32)
          (ceilLog2 (s.nodes.headD []).length) := by
      rw [h1]
    have hroot1 : (rebuildTree s).root =
        ((buildLevels
          (s.nodes.headD [] ++
            List.replicate
              (2 ^ ceilLog2 (s.nodes.headD []).length - (s.nodes.headD []).length) zero32)
          (ceilLog2 (s.nodes.headD []).length)).getLast?.bind List.head?).getD zero32 := by
      rw [h1]
    have hhead : (rebuildTree s).nodes.headD [] =
        s.nodes.headD [] ++
          List.replicate
            (2 ^ ceilLog2 (s.nodes.headD []).length - (s.nodes.headD []).length) zero32 := by
      rw [hnodes1]
      exact buildLevels_head _ _
    have hplen : ((rebuildTree s).nodes.headD []).length =
        2 ^ ceilLog2 (s.nodes.headD []).length := by
      rw [hhead]
      simp only [List.length_append, List.length_replicate]
      omega
    have hne2 : ((rebuildTree s).nodes.headD []).isEmpty = false := by
      have hpos : 0 < ((rebuildTree s).nodes.headD []).length := by
        rw [hplen]
        positivity
      cases hp : (rebuildTree s).nodes.headD [] with
      | nil => rw [hp] at hpos; simp at hpos
      | cons x xs => rfl
    have hk2 : ceilLog2 ((rebuildTree s).nodes.headD []).length =
        ceilLog2 (s.nodes.headD []).length := by
      rw [hplen, ceilLog2_pow]
    rw [rebuildTree_nonempty _ hne2, hk2, hplen, Nat.sub_self, List.replicate_zero,
      List.append_nil]
    exact update_nodes_root_self _ _ _ (by rw [hhead, hnodes1]) (by rw [hhead, hroot1])

/-- C10: when `remove_commitment(c)` returns true, the Merkle root and the whole
node table (in particular the leaf layer) are unchanged, `c` is deleted from the
approved set and the index map so `is_approved(c)` turns false, and verification
of any proof — in particular one generated for `c` before the removal — gives
the same answer as before; a proof that verified keeps verifying. -/
theorem lookup_filter_ne (c : List Nat) (l : List (List Nat × Nat)) :
    (l.filter (fun q => q.1 ≠ c)).lookup c = none := by
  induction l with
  | nil => rfl
  | cons q rest ih =>
    by_cases hq : q.1 = c
    · simpa [List.filter_cons, hq] using ih
    · have hbe : (c == q.1) = false := by
        simp only [beq_eq_false_iff_ne, ne_eq]
        exact fun hcq => hq hcq.symm
      simpa [List.filter_cons, hq, List.lookup, hbe] using ih

theorem c10_remove_preserves_proofs (s : ASPState) (c : List Nat)
    (hwf : rebuildTree s = s) (hnd : s.approved.Nodup) (hmem : c ∈ s.approved) :
    (removeCommitment s c).1 = true ∧
    (removeCommitment s c).2.root = s.root ∧
    (removeCommitment s c).2.nodes = s.nodes ∧
    (removeCommitment s c).2.approved = s.approved.erase c ∧
    (removeCommitment s c).2.indicesMap.lookup c = none ∧
    isApproved (removeCommitment s c).2 c = false ∧
    (∀ p, verifyProofASP (removeCommitment s c).2 c p = verifyProofASP s c p) ∧
    (∀ p, generateProofASP s c = .ok p → verifyProofASP s c p = true →
      verifyProofASP (removeCommitment s c).2 c p = true) := by
  have hstate : (removeCommitment s c).2 =
      { s with approved := s.approved.erase c,
               indicesMap := s.indicesMap.filter (fun q => q.1 ≠ c) } := by
    simp only [removeCommitment, if_pos hmem]
    rw [rebuildTree_comm, hwf]
  have hres : (removeCommitment s c).1 = true := by
    simp only [removeCommitment, if_pos hmem]
  refine ⟨hres, by rw [hstate], by rw [hstate], by rw [hstate], ?_, ?_, ?_, ?_⟩
  · rw [hstate]
    exact lookup_filter_ne c s.indicesMap
  · rw [hstate]
    simp [isApproved, hnd.not_mem_erase]
  · intro p
    rw [hstate]
    simp [verifyProofASP]
  · intro p _ hv
    rw [hstate]
    simpa [verifyProofASP] using hv

/-- C10 witness: removing the only member of a one-element provider keeps root
and nodes intact while revoking approval. -/
theorem c10_witness :
    (removeCommitment aspSingle (rep32 0x44)).1 = true ∧
    (removeCommitment aspSingle (rep32 0x44)).2.root = aspSingle.root ∧
    (removeCommitment aspSingle (rep32 0x44)).2.nodes = aspSingle.nodes ∧
    isApproved (removeCommitment aspSingle (rep32 0x44)).2 (rep32 0x44) = false :=
  have h := c10_remove_preserves_proofs aspSingle (rep32 0x44) (by decide) (by decide)
    (by decide)
  ⟨h.1, h.2.1, h.2.2.1, h.2.2.2.2.2.1⟩

/-! ## C3: withdrawal envelope shape -/

/-- C3: every proof emitted by an accepted withdrawal request is exactly 256
bytes: byte 0 is the version `0x01`, bytes 1..33 are
`SHA-256(commitment ‖ nullifier ‖ recipient ‖ amount-LE16 ‖ deposit-root)`,
bytes 33..65 are the deposit root, bytes 65..97 the nullifier, and bytes
97..256 are zero. -/
theorem c3_envelope_shape (p : WithdrawalProcessor) (r : WithdrawalRequest)
    (pf : List Nat)
    (hroot : p.commitment_root.length = 32) (hnul : r.nullifier.length = 32)
    (h : generateWithdrawalProof p r = .ok (pf, true)) :
    pf.length = 256 ∧
    pf.take 1 = [0x01] ∧
    (pf.drop 1).take 32 =
      sha256 (r.commitment ++ r.nullifier ++ r.recipient ++ leBytes 16 r.amount
        ++ p.commitment_root) ∧
    (pf.drop 33).take 32 = p.commitment_root ∧
    (pf.drop 65).take 32 = r.nullifier ∧
    pf.drop 97 = List.replicate 159 0 := by
  have hpf : pf = generateZkProof p r := by
    unfold generateWithdrawalProof at h
    cases hv : validateRequest r with
    | error e => rw [hv] at h; exact absurd h (by simp [Except.isOk, Except.toBool])
    | ok u =>
      rw [hv] at h
      by_cases hm : verifyMerkleInclusion p r.commitment r.merkle_proof r.proof_indices = false
      · rw [if_pos hm] at h; exact absurd h (by simp [Except.isOk, Except.toBool])
      · rw [if_neg hm] at h
        by_cases hn : verifyNullifierDerivation r.commitment r.nullifier = false
        · rw [if_pos hn] at h; exact absurd h (by simp [Except.isOk, Except.toBool])
        · rw [if_neg hn] at h
          have := h.symm
          simp only [Except.ok.injEq, Prod.mk.injEq] at this
          exact this.1
  subst hpf
  set d := sha256 (r.commitment ++ r.nullifier ++ r.recipient ++ leBytes 16 r.amount
    ++ p.commitment_root) with hd
  have hdlen : d.length = 32 := sha256_length _
  have hshape : generateZkProof p r =
      ([0x01] ++ d) ++ (p.commitment_root ++ (r.nullifier ++ List.replicate 159 0)) := by
    simp [generateZkProof, hd]
  refine ⟨?_, ?_, ?_, ?_, ?_, ?_⟩
  · simp [hshape, hdlen, hroot, hnul]
  · rw [hshape, List.append_assoc]
    exact take_app [0x01] _ 1 rfl
  · have h1 : generateZkProof p r = [0x01] ++ (d ++ (p.commitment_root
        ++ (r.nullifier ++ List.replicate 159 0))) := by
      rw [hshape]; simp
    rw [h1, drop_app [0x01] _ 1 rfl]
    exact take_app d _ 32 hdlen
  · rw [hshape, drop_app _ _ 33 (by simp [hdlen])]
    exact take_app _ _ 32 hroot
  · have h1 : generateZkProof p r = (([0x01] ++ d) ++ p.commitment_root)
        ++ (r.nullifier ++ List.replicate 159 0) := by
      rw [hshape]; simp
    rw [h1, drop_app _ _ 65 (by simp [hdlen, hroot])]
    exact take_app _ _ 32 hnul
  · have h1 : generateZkProof p r = ((([0x01] ++ d) ++ p.commitment_root)
        ++ r.nullifier) ++ List.replicate 159 0 := by
      rw [hshape]; simp
    rw [h1, drop_app _ _ 97 (by simp [hdlen, hroot, hnul])]

/-- C3 witness: a concretely accepted request whose emitted envelope the theorem
describes. -/
theorem c3_witness :
    (generateZkProof procW reqW).length = 256 ∧
    (generateZkProof procW reqW).take 1 = [0x01] := by
  have h := c3_envelope_shape procW reqW (generateZkProof procW reqW)
    (by decide) (by decide) rfl
  exact ⟨h.1, h.2.1⟩

/-! ## C4: nullifier binding uses only the first 16 bytes -/

theorem gwp_eq_shape (p : WithdrawalProcessor) (r : WithdrawalRequest) :
    generateWithdrawalProof p r =
      gwpShape (validateRequest r)
        (verifyMerkleInclusion p r.commitment r.merkle_proof r.proof_indices)
        (verifyNullifierDerivation r.commitment r.nullifier)
        (generateZkProof p r) := rfl

theorem gwpShape_isOk_congr (v : Except Error Unit) (b c : Bool) (z z' : List Nat) :
    (gwpShape v b c z).isOk = (gwpShape v b c z').isOk := by
  cases v with
  | error e => rfl
  | ok u =>
    cases b with
    | false => rfl
    | true =>
      cases c with
      | false => rfl
      | true => rfl

theorem gwpShape_error_congr (v : Except Error Unit) (b c : Bool) (z z' : List Nat)
    (e : Error) : gwpShape v b c z = .error e ↔ gwpShape v b c z' = .error e := by
  cases v with
  | error e0 => exact Iff.rfl
  | ok u =>
    cases b with
    | false => exact Iff.rfl
    | true =>
      cases c with
      | false => exact Iff.rfl
      | true => simp [gwpShape]

theorem gwpShape_reject (v : Except Error Unit) (b : Bool) (z : List Nat) :
    ∃ e, gwpShape v b false z = .error e := by
  cases v with
  | error e0 => exact ⟨e0, rfl⟩
  | ok u =>
    cases b with
    | false => exact ⟨.InvalidMerkleProof, rfl⟩
    | true => exact ⟨.InvalidProof, rfl⟩

/-- C4: the processor accepts a nullifier iff the first 16 bytes of
`SHA-256("nullifier" ‖ commitment)` equal the nullifier's first 16 bytes; on
mismatch the request is rejected with an error; and two requests that differ
only in nullifier bytes 16..32 have the same acceptance outcome (they are
accepted or rejected alike, with identical error kinds). -/
theorem c4_nullifier_low_bytes (p : WithdrawalProcessor) (r r' : WithdrawalRequest)
    (hcom : r'.commitment = r.commitment) (hrec : r'.recipient = r.recipient)
    (hamt : r'.amount = r.amount) (hmp : r'.merkle_proof = r.merkle_proof)
    (hpi : r'.proof_indices = r.proof_indices)
    (hn16 : r'.nullifier.take 16 = r.nullifier.take 16) :
    (verifyNullifierDerivation r.commitment r.nullifier = true ↔
      (sha256 (nullifierTag ++ r.commitment)).take 16 = r.nullifier.take 16) ∧
    ((sha256 (nullifierTag ++ r.commitment)).take 16 ≠ r.nullifier.take 16 →
      ∃ e, generateWithdrawalProof p r = .error e) ∧
    (generateWithdrawalProof p r).isOk = (generateWithdrawalProof p r').isOk ∧
    (∀ e, generateWithdrawalProof p r = .error e ↔
      generateWithdrawalProof p r' = .error e) := by
  have hval : validateRequest r' = validateRequest r := by
    simp [validateRequest, hamt, hmp, hpi]
  have hmer : verifyMerkleInclusion p r'.commitment r'.merkle_proof r'.proof_indices =
      verifyMerkleInclusion p r.commitment r.merkle_proof r.proof_indices := by
    rw [hcom, hmp, hpi]
  have hnul : verifyNullifierDerivation r'.commitment r'.nullifier =
      verifyNullifierDerivation r.commitment r.nullifier := by
    simp [verifyNullifierDerivation, hcom, hn16]
  refine ⟨by simp [verifyNullifierDerivation], ?_, ?_, ?_⟩
  · intro hne
    have hn : verifyNullifierDerivation r.commitment r.nullifier = false := by
      simp [verifyNullifierDerivation, hne]
    rw [gwp_eq_shape p r, hn]
    exact gwpShape_reject _ _ _
  · rw [gwp_eq_shape p r, gwp_eq_shape p r', hval, hmer, hnul]
    exact gwpShape_isOk_congr _ _ _ _ _
  · intro e
    rw [gwp_eq_shape p r, gwp_eq_shape p r', hval, hmer, hnul]
    exact gwpShape_error_congr _ _ _ _ _ e

/-- C4 witness: `reqW` and `reqW2` differ only in nullifier bytes 16..32 and are
both accepted; `reqBad`, whose low 16 bytes break the derivation, is rejected
with `InvalidProof`. -/
theorem c4_witness :
    (generateWithdrawalProof procW reqW).isOk = (generateWithdrawalProof procW reqW2).isOk ∧
    (∃ e, generateWithdrawalProof procW reqBad = .error e) ∧
    (generateWithdrawalProof procW reqW).isOk = true :=
  ⟨(c4_nullifier_low_bytes procW reqW reqW2 rfl rfl rfl rfl rfl (by decide)).2.2.1,
   (c4_nullifier_low_bytes procW reqBad reqBad rfl rfl rfl rfl rfl rfl).2.1 (by decide),
   by decide⟩

/-! ## C1: nullifier double-spend rejection -/

theorem pw_eq_shape (s : Vault) (r : WithdrawalRequest) (now : Nat) :
    processWithdrawal s r now =
      pwShape s.initialized (EncryptedState.decrypt s.encrypted_state)
        (r.nullifier ∈ s.nullifier_set)
        (generateWithdrawalProof ⟨s.commitment_root, s.evm_vault_address⟩ r) s
        (fun zkProof =>
          let s1 := { s with nullifier_set := s.nullifier_set ++ [r.nullifier] }
          let attestation := generateTeeAttestation s1 r zkProof now
          let s2 := { s1 with audit_log := s1.audit_log ++ [mkAuditEntry s1 r now] }
          (.ok { success := true, tx_hash := none, zk_proof := zkProof,
                 tee_attestation := attestation, error := none }, s2)) := rfl

theorem pwShape_ok_inv (init : Bool) (dec : Except Error EncryptedState)
    (memP : Prop) [Decidable memP] (g : Except Error (List Nat × Bool)) (s : Vault)
    (k : List Nat → Except Error WithdrawalResponse × Vault)
    (h : (pwShape init dec memP g s k).1.isOk = true) :
    init = true ∧ (∃ st, dec = .ok st) ∧ ¬memP ∧
      ∃ zk, g = .ok (zk, true) ∧ pwShape init dec memP g s k = k zk := by
  unfold pwShape at h ⊢
  by_cases hi : init = false
  · rw [if_pos hi] at h
    exact absurd h (by simp [Except.isOk, Except.toBool])
  · rw [if_neg hi] at h ⊢
    cases dec with
    | error e => exact absurd h (by simp [Except.isOk, Except.toBool])
    | ok st =>
      by_cases hm : memP
      · rw [if_pos hm] at h
        exact absurd h (by simp [Except.isOk, Except.toBool])
      · rw [if_neg hm] at h ⊢
        cases g with
        | error e => exact absurd h (by simp [Except.isOk, Except.toBool])
        | ok pr =>
          obtain ⟨zk, valid⟩ := pr
          dsimp only at h ⊢
          by_cases hv : valid = false
          · rw [if_pos hv] at h
            exact absurd h (by simp [Except.isOk, Except.toBool])
          · rw [if_neg hv] at h ⊢
            have hvt : valid = true := by
              cases valid
              · exact absurd rfl hv
              · rfl
            refine ⟨by cases init <;> simp_all, ⟨st, rfl⟩, hm, zk, by rw [hvt], rfl⟩

theorem pwShape_dup (init : Bool) (dec : Except Error EncryptedState)
    (memP : Prop) [Decidable memP] (g : Except Error (List Nat × Bool)) (s : Vault)
    (k : List Nat → Except Error WithdrawalResponse × Vault)
    (hi : init = true) (hd : ∃ st, dec = .ok st) (hm : memP) :
    pwShape init dec memP g s k = (.error .NullifierAlreadyUsed, s) := by
  obtain ⟨st, hst⟩ := hd
  subst hst
  unfold pwShape
  rw [hi, if_neg (by simp), if_pos hm]

/-- C1: if a withdrawal succeeds, a second request carrying the same nullifier
is rejected with `NullifierAlreadyUsed` and leaves the state — nullifier set and
audit log included — unchanged; the successful call appended that nullifier and
exactly one audit entry, so exactly one Withdrawal audit entry exists for it. -/
theorem c1_double_spend (s : Vault) (r1 r2 : WithdrawalRequest) (t1 t2 : Nat)
    (hok : (processWithdrawal s r1 t1).1.isOk = true)
    (hn : r2.nullifier = r1.nullifier) :
    processWithdrawal (processWithdrawal s r1 t1).2 r2 t2 =
      (.error .NullifierAlreadyUsed, (processWithdrawal s r1 t1).2) ∧
    (processWithdrawal s r1 t1).2.nullifier_set = s.nullifier_set ++ [r1.nullifier] ∧
    (processWithdrawal s r1 t1).2.audit_log.length = s.audit_log.length + 1 := by
  rw [pw_eq_shape s r1 t1] at hok
  obtain ⟨hi, ⟨st, hdec⟩, hm, zk, hg, heq⟩ :=
    pwShape_ok_inv _ _ _ _ _ _ hok
  have hstate : (processWithdrawal s r1 t1).2 =
      { s with nullifier_set := s.nullifier_set ++ [r1.nullifier],
               audit_log := s.audit_log ++
                 [mkAuditEntry
                   { s with nullifier_set := s.nullifier_set ++ [r1.nullifier] } r1 t1] } := by
    rw [pw_eq_shape s r1 t1, heq]
  refine ⟨?_, ?_, ?_⟩
  · rw [pw_eq_shape ((processWithdrawal s r1 t1).2) r2 t2]
    refine pwShape_dup _ _ _ _ _ _ ?_ ?_ ?_
    · rw [hstate]
      exact hi
    · rw [hstate]
      exact ⟨st, hdec⟩
    · rw [hstate, hn]
      simp
  · rw [hstate]
  · rw [hstate]
    simp

/-- C1 witness: a concretely successful withdrawal followed by a same-nullifier
replay that is rejected. -/
theorem c1_witness :
    processWithdrawal (processWithdrawal vaultW reqW 5).2 reqW 6 =
      (.error .NullifierAlreadyUsed, (processWithdrawal vaultW reqW 5).2) ∧
    (processWithdrawal vaultW reqW 5).2.nullifier_set = [nulW] ∧
    (processWithdrawal vaultW reqW 5).2.audit_log.length = 1 :=
  have h := c1_double_spend vaultW reqW reqW 5 6 (by decide) rfl
  ⟨h.1, h.2.1, h.2.2⟩

/-! ## C9: encrypted-state magic check and roundtrip -/

theorem xorTile_length (key b : List Nat) : ∀ i, (xorTile key i b).length = b.length := by
  induction b with
  | nil => intro i; rfl
  | cons x rest ih =>
    intro i
    simp [xorTile, ih]

theorem xorTile_xorTile (key : List Nat) (b : List Nat) :
    ∀ i, xorTile key i (xorTile key i b) = b := by
  induction b with
  | nil => intro i; rfl
  | cons x rest ih =>
    intro i
    simp [xorTile, ih, Nat.xor_cancel_right]

theorem encode_assoc (s : EncryptedState) :
    s.encode = s.contract_key ++ (leBytes 4 s.state_version ++
      (leBytes 8 s.commitment_count ++ leBytes 8 s.last_update)) := by
  simp [EncryptedState.encode]

theorem encode_length (s : EncryptedState) (hk : s.contract_key.length = 32) :
    s.encode.length = 52 := by
  simp [EncryptedState.encode, leBytes_length, hk]

theorem decode_encode (s : EncryptedState) (hk : s.contract_key.length = 32)
    (h1 : s.state_version < 2 ^ 32) (h2 : s.commitment_count < 2 ^ 64)
    (h3 : s.last_update < 2 ^ 64) :
    EncryptedState.decode s.encode = some s := by
  have hform := encode_assoc s
  have htake : s.encode.take 32 = s.contract_key := by
    rw [hform]
    exact take_app _ _ 32 hk
  have hdrop32 : s.encode.drop 32 = leBytes 4 s.state_version ++
      (leBytes 8 s.commitment_count ++ leBytes 8 s.last_update) := by
    rw [hform]
    exact drop_app _ _ 32 hk
  have hv : (s.encode.drop 32).take 4 = leBytes 4 s.state_version := by
    rw [hdrop32]
    exact take_app _ _ 4 (leBytes_length 4 _)
  have hform2 : s.encode = (s.contract_key ++ leBytes 4 s.state_version) ++
      (leBytes 8 s.commitment_count ++ leBytes 8 s.last_update) := by
    rw [hform]
    simp
  have hdrop36 : s.encode.drop 36 =
      leBytes 8 s.commitment_count ++ leBytes 8 s.last_update := by
    rw [hform2]
    exact drop_app _ _ 36 (by simp [hk, leBytes_length])
  have hc : (s.encode.drop 36).take 8 = leBytes 8 s.commitment_count := by
    rw [hdrop36]
    exact take_app _ _ 8 (leBytes_length 8 _)
  have hform3 : s.encode = ((s.contract_key ++ leBytes 4 s.state_version) ++
      leBytes 8 s.commitment_count) ++ leBytes 8 s.last_update := by
    rw [hform]
    simp
  have hdrop44 : s.encode.drop 44 = leBytes 8 s.last_update := by
    rw [hform3]
    exact drop_app _ _ 44 (by simp [hk, leBytes_length])
  have hl : (s.encode.drop 44).take 8 = leBytes 8 s.last_update := by
    rw [hdrop44]
    simp [leBytes_length]
  unfold EncryptedState.decode
  rw [if_pos (by rw [encode_length s hk])]
  rw [htake, hv, hc, hl]
  rw [leToNat_leBytes 4 _ (by simpa using h1),
    leToNat_leBytes 8 _ (by simpa using h2),
    leToNat_leBytes 8 _ (by simpa using h3)]

/-- C9 counterexample: an input that does not begin with the full 4-byte magic
`E0 01 00 00` (bytes 2 and 3 are wrong) is still decrypted successfully, since
`decrypt` checks only the first two bytes; and the encrypt-then-decrypt
roundtrip fails to restore the fields of a state whose contract key is not the
canonical derived key (here the `Default` all-zero state), because `decrypt`
always decodes with a freshly derived key. -/
theorem c9_counterexample :
    badMagic.take 4 ≠ [0xE0, 0x01, 0x00, 0x00] ∧
    EncryptedState.decrypt badMagic = .ok EncryptedState.new ∧
    EncryptedState.decrypt EncryptedState.defaultState.encrypt ≠
      .ok EncryptedState.defaultState := by
  refine ⟨by decide, by decide, by decide⟩

/-- C9 (amended): `decrypt` returns `DecryptionError` for every input shorter
than 4 bytes or whose byte 0 is not `0xE0` or byte 1 not `0x01` (bytes 2 and 3
of the magic are not checked); and for every state whose contract key is the
canonical key derived by `new()`, decrypting its own encrypt output succeeds and
returns identical fields. -/
theorem c9_decrypt_magic_roundtrip (e : List Nat) (s : EncryptedState)
    (he : e.length < 4 ∨ e.getD 0 0 ≠ 0xE0 ∨ e.getD 1 0 ≠ 0x01)
    (hk : s.contract_key = sha256 keySeed)
    (h1 : s.state_version < 2 ^ 32) (h2 : s.commitment_count < 2 ^ 64)
    (h3 : s.last_update < 2 ^ 64) :
    EncryptedState.decrypt e = .error .DecryptionError ∧
    EncryptedState.decrypt s.encrypt = .ok s := by
  constructor
  · unfold EncryptedState.decrypt
    by_cases hlen : e.length < 4
    · rw [if_pos hlen]
    · rw [if_neg hlen, if_pos (by tauto)]
  · have hklen : s.contract_key.length = 32 := by
      rw [hk]
      exact sha256_length _
    have henc : s.encrypt = [0xE0, 0x01, 0x00, 0x00] ++ xorTile s.contract_key 0 s.encode :=
      rfl
    unfold EncryptedState.decrypt
    rw [if_neg (by simp [henc, xorTile_length])]
    rw [if_neg (by simp [henc])]
    have hdrop : s.encrypt.drop 4 = xorTile s.contract_key 0 s.encode := by
      rw [henc]
      exact drop_app _ _ 4 rfl
    have hkey : EncryptedState.new.contract_key = s.contract_key := by
      rw [hk]
      rfl
    rw [hdrop, hkey, xorTile_xorTile, decode_encode s hklen h1 h2 h3]

/-- C9 witness. -/
theorem c9_witness :
    EncryptedState.decrypt [0x00] = .error .DecryptionError ∧
    EncryptedState.decrypt (EncryptedState.encrypt ⟨sha256 keySeed, 5, 6, 7⟩) =
      .ok ⟨sha256 keySeed, 5, 6, 7⟩ :=
  c9_decrypt_magic_roundtrip [0x00] ⟨sha256 keySeed, 5, 6, 7⟩
    (Or.inl (by decide)) rfl (by norm_num) (by norm_num) (by norm_num)

end ZkEnclave
